import Mathlib

/-!
Verification of the session-synchronization core of the Spacebase repository
(the portal/server session handler pair in `evennia/server/sessionhandler.py`
and `evennia/server/portal/portalsessionhandler.py`, the wire-format
normalization `clean_senddata`, and the input-function dispatch of
`evennia/server/inputfuncs.py`).

The Python code is shallowly embedded: dictionaries become association
lists, object mutation becomes explicit state passing, scheduled
callbacks (`reactor.callLater`) become recorded schedule entries, and
AMP messages to the peer process become recorded effect entries.
Timestamps are rationals (the source uses float seconds; all comparisons
in the source are exact order comparisons, which rationals model
faithfully for the inputs considered here).
-/

/-- A Python data value as it appears in send payloads: strings, numbers,
booleans, None, lists, string-keyed dicts, and database objects (which the
source detects via their `id`, `db_date_created` and `__dbclass__`
attributes and which carry a display-string representation). -/
inductive PyData where
  | str (s : String)
  | num (n : Int)
  | bool (b : Bool)
  | pynone
  | list (xs : List PyData)
  | dict (xs : List (String × PyData))
  | dbobj (repr : String)
deriving Repr

/-- Python truthiness (`if not data:` and friends) for the embedded values. -/
def pyFalsy : PyData → Bool
  | .str s => s.isEmpty
  | .num n => n == 0
  | .bool b => !b
  | .pynone => true
  | .list xs => xs.isEmpty
  | .dict xs => xs.isEmpty
  | .dbobj _ => false

def pyTruthy (d : PyData) : Bool := !pyFalsy d

/-- `hasattr(data, "__iter__")` in Python 2: true for lists and dicts,
false for strings, numbers, booleans and None. -/
def pyHasIter : PyData → Bool
  | .list _ => true
  | .dict _ => true
  | _ => false

/-- Dictionary read: first binding of a key in an association list. -/
def dictGet (xs : List (String × PyData)) (k : String) : Option PyData :=
  (xs.find? (fun kv => kv.1 == k)).map (fun kv => kv.2)

/-- Dictionary write `d[k] = v`: replace the binding in place when the key
exists (Python dicts keep insertion order on overwrite), append otherwise. -/
def dictSet (xs : List (String × PyData)) (k : String) (v : PyData) : List (String × PyData) :=
  if xs.any (fun kv => kv.1 == k) then
    xs.map (fun kv => if kv.1 == k then (k, v) else kv)
  else
    xs ++ [(k, v)]

/-- AMP operation codes from `sessionhandler.py` (the source stores them as
one-character strings `chr(n)`; we keep the code point). -/
def PCONNop : Nat := 1

def PDISCONNop : Nat := 2

def SLOGINop : Nat := 4

def SDISCONNop : Nat := 5

def SSYNCop : Nat := 8

def PCONNSYNCop : Nat := 12

/-- A server-side game session (`_ServerSession`): the fields of the session
record that the claims under verification read or write.  `player` holds the
uid of the resolved player object once login has bound one. -/
structure SSession where
  sessid : Nat
  logged_in : Bool
  uid : Option Nat
  cmd_last : ℚ
  address : String
  player : Option Nat
deriving DecidableEq, Repr

/-- Effects the server-side handler emits: AMP administration messages to the
portal (`send_AdminServer2Portal`) and inbound text commands the handler
injects into its own `data_in` (the first-login prompt). -/
inductive SEffect where
  | amp (sessid : Nat) (op : Nat)
  | prompt (sessid : Nat) (text : String)
deriving DecidableEq, Repr

/-- The state of `ServerSessionHandler`: the session table (a Python dict
keyed by `sessid`; every entry is stored under its own session id, which is
how all call sites in the source write it) plus the emitted effects. -/
structure ServerState where
  table : List SSession
  effects : List SEffect
deriving DecidableEq, Repr

namespace Server

/-- `self.map` over the one entry with the given session id; models in-place
mutation of the session object stored in the handler dict. -/
def updateSess (t : List SSession) (sid : Nat) (f : SSession → SSession) : List SSession :=
  t.map (fun s => if s.sessid == sid then f s else s)

/-- `ServerSessionHandler.disconnect` (sessionhandler.py lines 423-450):
re-looks the session up by id, returns when absent, otherwise removes the
entry and tells the portal via an `SDISCONN` message.  (The per-player
logout logging and the `at_disconnect` hook touch no handler state.) -/
def disconnect (st : ServerState) (sid : Nat) : ServerState :=
  match st.table.find? (fun s => s.sessid == sid) with
  | Option.none => st
  | some _ =>
      { table := st.table.filter (fun s => s.sessid != sid),
        effects := st.effects ++ [.amp sid SDISCONNop] }

/-- `ServerSessionHandler.disconnect_duplicate_sessions` (lines 491-507):
collect every stored session that is logged in, shares the uid of
`curr`, and is a different object from `curr` (object identity; since the
dict stores each object under its own unique id, identity is id equality),
then disconnect each of them. -/
def disconnect_duplicate_sessions (st : ServerState) (curr : SSession) : ServerState :=
  let doublets := st.table.filter
    (fun s => s.logged_in && s.uid == curr.uid && s.sessid != curr.sessid)
  doublets.foldl (fun acc s => disconnect acc s.sessid) st

/-- `ServerSessionHandler.login` (lines 368-421), parametrized by the
`MULTISESSION_MODE` setting `mm`.  The player object is represented by its
uid.  `session.at_login(player)` is not under src/; modelled from the spec
(section 4.3: login binds the authenticated identity to the session), it
assigns the player uid to the session.  The player-side hooks (`at_init`,
`is_connected`, `at_pre_login`, `at_post_login`) mutate only player state
that no claim reads and are elided. -/
def login (mm : Nat) (st : ServerState) (curr : SSession) (playerUid : Nat)
    (force : Bool) (testmode : Bool) : ServerState :=
  if curr.logged_in && !force then st
  else
    let t1 := updateSess st.table curr.sessid
      (fun s => { s with uid := some playerUid, player := some playerUid })
    let st1 : ServerState := { st with table := t1 }
    let curr1 := { curr with uid := some playerUid, player := some playerUid }
    let st2 := if mm == 0 then disconnect_duplicate_sessions st1 curr1 else st1
    let t3 := updateSess st2.table curr.sessid (fun s => { s with logged_in := true })
    let st3 : ServerState := { st2 with table := t3 }
    if testmode then st3
    else { st3 with effects := st3.effects ++ [.amp curr.sessid SLOGINop] }

/-- `ServerSessionHandler.validate_sessions` (lines 509-520): sweep the
stored sessions and disconnect each one that is logged in while the idle
timeout is strictly positive and the time since its last command strictly
exceeds the timeout.  (`self.values()` in Python 2 is a snapshot list, so
the sweep set is fixed before any disconnect runs.) -/
def validate_sessions (timeout : ℚ) (tcurr : ℚ) (st : ServerState) : ServerState :=
  let doomed := st.table.filter
    (fun s => s.logged_in && decide (0 < timeout) && decide (timeout < tcurr - s.cmd_last))
  doomed.foldl (fun acc s => disconnect acc s.sessid) st

end Server

/-- Modelled from the spec: the serializable sync snapshot of a session
(`Session.get_sync_data` / `load_sync_data` live outside src/; spec section 3
describes the SyncPayload as a snapshot of the session fields — id, auth
state, identity, timestamps, address). -/
structure SyncData where
  sessid : Nat
  logged_in : Bool
  uid : Option Nat
  cmd_last : ℚ
  address : String
deriving DecidableEq, Repr

/-- Modelled from the spec: `Session.get_sync_data` projects the synced
fields out of a session. -/
def get_sync_data (s : SSession) : SyncData :=
  { sessid := s.sessid, logged_in := s.logged_in, uid := s.uid,
    cmd_last := s.cmd_last, address := s.address }

/-- Modelled from the spec: a fresh `_ServerSession()` followed by
`load_sync_data(d)` — a session holding exactly the synced fields, with no
player object bound yet. -/
def load_sync_data (d : SyncData) : SSession :=
  { sessid := d.sessid, logged_in := d.logged_in, uid := d.uid,
    cmd_last := d.cmd_last, address := d.address, player := Option.none }

/-- `SessionHandler.get_all_sync_data` (sessionhandler.py lines 120-129):
a dict mapping each stored session id to that session's sync snapshot. -/
def get_all_sync_data (st : ServerState) : List (Nat × SyncData) :=
  st.table.map (fun s => (s.sessid, get_sync_data s))

namespace Server

/-- Python truthiness of a uid field (`None` and `0` are falsy). -/
def uidTruthy : Option Nat → Bool
  | Option.none => false
  | some n => n != 0

/-- `self[sessid] = sess`: dict assignment on the session table.  The table
keeps one entry per session id; assignment replaces an existing entry in
place and appends otherwise. -/
def tableSet (t : List SSession) (s : SSession) : List SSession :=
  if t.any (fun x => x.sessid == s.sessid) then
    t.map (fun x => if x.sessid == s.sessid then s else x)
  else
    t ++ [s]

/-- The first-login command (`CMD_LOGINSTART`, imported by the source from
outside src/; modelled from the spec as an abstract prompt token). -/
def loginStartCmd : String := "CMD_LOGINSTART"

/-- `ServerSessionHandler.portal_connect` (lines 238-273), parametrized by
`MULTISESSION_MODE` and by the player database lookup
(`PlayerDB.objects.get_player_from_uid`, represented by the predicate
`playerExists`; a found player is represented by its uid).  Builds the new
session from the sync payload, stores it, and either re-runs login (payload
already authenticated and the player resolves), demotes the session to
anonymous (payload authenticated but no such player) and shows the login
prompt, or just shows the login prompt.  Script validation and the
`at_sync` hook touch no handler state and are elided. -/
def portal_connect (mm : Nat) (playerExists : Nat → Bool) (st : ServerState)
    (d : SyncData) : ServerState :=
  let sess := load_sync_data d
  let st1 : ServerState := { st with table := tableSet st.table sess }
  if sess.logged_in && uidTruthy sess.uid then
    let u := sess.uid.getD 0
    if playerExists u then
      login mm st1 sess u true false
    else
      let t2 := updateSess st1.table sess.sessid
        (fun s => { s with logged_in := false, uid := Option.none })
      let st2 : ServerState := { st1 with table := t2 }
      { st2 with effects := st2.effects ++ [.prompt sess.sessid loginStartCmd] }
  else
    { st1 with effects := st1.effects ++ [.prompt sess.sessid loginStartCmd] }

/-- `ServerSessionHandler.portal_sessions_sync` (lines 296-330), parametrized
by the player lookup.  The opening `for sess in self.values(): del sess`
loop only unbinds the loop variable and mutates nothing, so the old table
survives; each incoming entry is rebuilt from its sync payload, gets its
player re-resolved when it carries a uid, and is stored under its id.
Script re-validation and the restart announcement touch no table state and
are elided.  The loop body is `syncRebuild` below, for one incoming
`(sessid, sessdict)` entry: a fresh session loaded from the payload, with
its player re-resolved from the uid (the lookup may also fail, leaving
`player` unbound, exactly as `get_player_from_uid` can return None). -/
def syncRebuild (playerExists : Nat → Bool) (kv : Nat × SyncData) : SSession :=
  let sess := load_sync_data kv.2
  if uidTruthy sess.uid then
    { sess with player := if playerExists (sess.uid.getD 0) then some (sess.uid.getD 0) else Option.none }
  else sess

def portal_sessions_sync (playerExists : Nat → Bool) (st : ServerState)
    (data : List (Nat × SyncData)) : ServerState :=
  { st with table := data.foldl (fun t kv => tableSet t (syncRebuild playerExists kv)) st.table }

end Server

/-- A portal-side session (`PortalSession`): the fields the portal handler
reads or writes in the claims under verification. -/
structure PSession where
  sessid : Nat
  server_connected : Bool
  logged_in : Bool
  cmd_last : ℚ
deriving DecidableEq, Repr

/-- Modelled from the spec: a `{property: value}` field-update payload for a
portal session (`load_sync_data` lives outside src/; spec section 4.2 calls
`server_session_sync` a dict of session-id to field-updates applied
in place). A field left `none` is absent from the payload. -/
structure PSessUpdate where
  logged_in : Option Bool
  cmd_last : Option ℚ
deriving DecidableEq, Repr

/-- Modelled from the spec: apply a field-update payload to a portal session
in place. -/
def applyUpdate (s : PSession) (u : PSessUpdate) : PSession :=
  { s with logged_in := u.logged_in.getD s.logged_in,
           cmd_last := u.cmd_last.getD s.cmd_last }

/-- A Python runtime error surfacing from the embedded code. -/
inductive PyErr where
  | attributeError
deriving DecidableEq, Repr

/-- A user-visible notice the portal pushes down a session's own transport
(`session.data_out(text=...)`); the source renders these as format strings,
we keep the structured content. -/
inductive UserNotice where
  | queued (sessid : Nat) (waitSeconds : ℚ)
  | overflow (sessid : Nat)
deriving DecidableEq, Repr

/-- The state of `PortalSessionHandler` together with the module-level
`_CONNECTION_QUEUE` deque (queue head = most recently appended, since the
source pushes with `appendleft` and admits with `pop` from the back).
`scheduled` records the `reactor.callLater` targets (as absolute times) and
`sentOps` / `toServer` the AMP traffic towards the server process. -/
structure PortalState where
  latest_sessid : Nat
  queue : List PSession
  table : List (Nat × PSession)
  connection_last : ℚ
  command_counter : Nat
  command_counter_reset : ℚ
  command_overflow : Bool
  sentOps : List (Nat × Nat)
  toServer : List Nat
  userMsgs : List UserNotice
  protoDisconnects : List (Nat × String)
  scheduled : List ℚ
deriving DecidableEq, Repr

namespace Portal

/-- The enqueue half of `PortalSessionHandler.connect` (portalsessionhandler.py
lines 84-93): the `if session:` block that admits a first-time connector into
the throttle queue.  The new session gets the next id, is marked not yet
server-connected, and is pushed onto the front of the queue; when the queue
then holds more than one entry the *connecting* session is sent the courtesy
queued-notice with estimated wait `len(queue) * minInterval` seconds.  The
remainder of `connect` (rate-gated admission towards the server) emits no
user notices and is not needed by the claims. -/
def connect_enqueue (minInterval : ℚ) (st : PortalState) (s : PSession) : PortalState :=
  let sid := st.latest_sessid + 1
  let s1 : PSession := { s with sessid := sid, server_connected := false }
  let q := s1 :: st.queue
  let msgs := if q.length > 1 then
      st.userMsgs ++ [.queued sid ((q.length : ℚ) * minInterval)]
    else st.userMsgs
  { st with latest_sessid := sid, queue := q, userMsgs := msgs }

/-- `PortalSessionHandler.disconnect` (lines 148-164): a session still in the
connection queue is removed from the queue and nothing else happens; any
other session is reported to the server with a `PDISCONN` message (the local
table is not touched by this method — removal happens only later, when the
server instructs `server_disconnect`). -/
def disconnect (st : PortalState) (s : PSession) : PortalState :=
  if st.queue.contains s then
    { st with queue := st.queue.erase s }
  else
    { st with sentOps := st.sentOps ++ [(s.sessid, PDISCONNop)] }

/-- The argument `server_disconnect` receives: Python is dynamically typed
and the source passes either a session object or a bare session id int. -/
inductive SessArg where
  | sess (s : PSession)
  | sid (n : Nat)
deriving DecidableEq, Repr

/-- Python truthiness of a `SessArg` (`if session:`): objects are truthy,
an int is truthy when nonzero. -/
def sessArgTruthy : SessArg → Bool
  | .sess _ => true
  | .sid n => n != 0

/-- `PortalSessionHandler.server_disconnect` (lines 198-212): when the
argument is truthy it calls `session.disconnect(reason)` on it and then
deletes the table entry under `session.sessid` if present.  When the
argument is a bare int — as the docstring in fact advertises — the attribute
access `session.disconnect` raises `AttributeError`. -/
def server_disconnect (st : PortalState) (x : SessArg) (reason : String) :
    Except PyErr PortalState :=
  if sessArgTruthy x then
    match x with
    | .sess s =>
        let st1 : PortalState :=
          { st with protoDisconnects := st.protoDisconnects ++ [(s.sessid, reason)] }
        .ok { st1 with table := st1.table.filter (fun kv => kv.1 != s.sessid) }
    | .sid _ => .error .attributeError
  else .ok st

/-- `PortalSessionHandler.server_session_sync` (lines 239-261): update in
place every local session whose id occurs in the incoming dict; when `clean`
is set, pass each remaining local session id — the bare int — to
`server_disconnect`. -/
def server_session_sync (st : PortalState) (serversessions : List (Nat × PSessUpdate))
    (clean : Bool) : Except PyErr PortalState :=
  let to_save := (serversessions.map Prod.fst).filter
    (fun sid => st.table.any (fun kv => kv.1 == sid))
  let table1 := st.table.map (fun kv =>
    match serversessions.find? (fun u => u.1 == kv.1) with
    | some u => (kv.1, applyUpdate kv.2 u.2)
    | Option.none => kv)
  let st1 : PortalState := { st with table := table1 }
  if clean then
    let to_delete := (st1.table.map Prod.fst).filter (fun sid => !(to_save.contains sid))
    to_delete.foldlM (fun acc sid => server_disconnect acc (.sid sid) "") st1
  else .ok st1

/-- `PortalSessionHandler.data_in` (lines 307-350), with the wall clock an
explicit argument.  A call with a session is an inbound message: when the
rolling counter has passed `maxRate` the window is checked and the overflow
flag recomputed (scheduling the reset callback one second out when raised);
while the flag is set the message is answered with only the overflow notice,
otherwise it is counted, stamps the session's `cmd_last`, and is relayed to
the server (the `clean_senddata` scrub of the payload touches no handler
state and the payload itself is abstracted away).  A call without a session
is the scheduled reset callback: it lowers the flag and re-schedules one
further check. -/
def data_in (maxRate : ℚ) (st : PortalState) (now : ℚ) (sess : Option PSession) :
    PortalState :=
  match sess with
  | some s =>
      let st1 :=
        if (st.command_counter : ℚ) > maxRate then
          let dT := now - st.command_counter_reset
          let ov : Bool := decide (dT < 1)
          let stA : PortalState :=
            { st with command_counter := 0, command_counter_reset := now,
                      command_overflow := ov }
          if ov then { stA with scheduled := stA.scheduled ++ [now + 1] } else stA
        else st
      if st1.command_overflow then
        { st1 with userMsgs := st1.userMsgs ++ [.overflow s.sessid] }
      else
        { st1 with
            command_counter := st1.command_counter + 1,
            table := st1.table.map (fun kv =>
              if kv.1 == s.sessid then (kv.1, { kv.2 with cmd_last := now }) else kv),
            toServer := st1.toServer ++ [s.sessid] }
  | Option.none =>
      if st.command_overflow then
        { st with command_overflow := false, scheduled := st.scheduled ++ [now + 1] }
      else st

end Portal

/-- The ambient configuration `clean_senddata` reads: the
`INLINEFUNC_ENABLED` setting, whether `self` is the `ServerSessionHandler`
(the `isinstance` check on the outgoing path), which encodings the codec
registry knows (`LookupError` is raised exactly for unknown ones), and the
`parse_inlinefunc` routine (outside src/; first argument is the strip
flag).  String re-encoding of text that the session encoding can represent
is the identity, which is how the send-safe payloads of the claims behave. -/
structure CleanCfg where
  inlinefuncEnabled : Bool
  isServer : Bool
  knownEncoding : String → Bool
  parseInline : Bool → String → String

/-- The string branch of `_validate` (sessionhandler.py lines 167-178): an
empty string short-circuits the `data and to_str(...)` conversion (so a bad
encoding is not even noticed), a known session encoding converts in place
(identity on send-safe text), an unknown one raises `LookupError`, which is
healed by rewriting the session encoding to utf-8; afterwards inline
functions are parsed on the server-side outgoing path unless `raw` is set.
Returns the (possibly healed) session encoding and the resulting text. -/
def validateStr (cfg : CleanCfg) (raw strip : Bool) (enc : String) (s : String) :
    String × String :=
  let r :=
    if s.isEmpty then (enc, s)
    else if cfg.knownEncoding enc then (enc, s)
    else ("utf-8", s)
  let s2 := if cfg.inlinefuncEnabled && !raw && cfg.isServer then
      cfg.parseInline strip r.2
    else r.2
  (r.1, s2)

mutual

/-- The recursive `_validate` helper of `clean_senddata` (lines 158-184):
dicts validate their values, iterables their items, strings go through the
encoding/inlinefunc pipeline, database objects are replaced by their
display string (run through the same string pipeline), and every other
value passes through.  The session encoding is threaded through because the
string branch can heal it in place. -/
def validateData (cfg : CleanCfg) (raw strip : Bool) (enc : String) :
    PyData → String × PyData
  | .dict xs =>
      let r := validatePairs cfg raw strip enc xs
      (r.1, .dict r.2)
  | .list xs =>
      let r := validateItems cfg raw strip enc xs
      (r.1, .list r.2)
  | .str s =>
      let r := validateStr cfg raw strip enc s
      (r.1, .str r.2)
  | .dbobj rep =>
      let r := validateStr cfg raw strip enc rep
      (r.1, .str r.2)
  | d => (enc, d)

/-- `_validate` over the items of a list, threading the session encoding. -/
def validateItems (cfg : CleanCfg) (raw strip : Bool) (enc : String) :
    List PyData → String × List PyData
  | [] => (enc, [])
  | x :: xs =>
      let r1 := validateData cfg raw strip enc x
      let r2 := validateItems cfg raw strip r1.1 xs
      (r2.1, r1.2 :: r2.2)

/-- `_validate` over the values of a dict (keys pass through untouched in
the dict branch), threading the session encoding. -/
def validatePairs (cfg : CleanCfg) (raw strip : Bool) (enc : String) :
    List (String × PyData) → String × List (String × PyData)
  | [] => (enc, [])
  | kv :: xs =>
      let r1 := validateData cfg raw strip enc kv.2
      let r2 := validatePairs cfg raw strip r1.1 xs
      (r2.1, (kv.1, r1.2) :: r2.2)

end

/-- The normalization of one instruction value by the main loop of
`clean_senddata` (lines 186-206): returns the encoding after validation,
the positional part, and the keyword dict (before the `options` slot is
written).  The shorthand forms accepted are: falsy value, bare dict, list
ending in a dict (with the two-element case split on whether the head is
itself iterable), plain iterable, and bare value. -/
def cleanEntry (cfg : CleanCfg) (raw strip : Bool) (enc : String) (data : PyData) :
    String × PyData × List (String × PyData) :=
  if pyFalsy data then (enc, .list [], [])
  else match data with
    | .dict d =>
        let r := validatePairs cfg raw strip enc d
        (r.1, .list [], r.2)
    | .list xs =>
        match xs.getLast? with
        | some (.dict dl) =>
            if xs.length == 2 then
              match xs.head? with
              | some x0 =>
                  let r0 := validateData cfg raw strip enc x0
                  let r1 := validatePairs cfg raw strip r0.1 dl
                  if pyHasIter x0 then (r1.1, r0.2, r1.2)
                  else (r1.1, .list [r0.2], r1.2)
              | Option.none => (enc, .list [], [])
            else
              let r0 := validateItems cfg raw strip enc xs.dropLast
              let r1 := validatePairs cfg raw strip r0.1 dl
              (r1.1, .list r0.2, r1.2)
        | some _ =>
            let r := validateItems cfg raw strip enc xs
            (r.1, .list r.2, [])
        | Option.none => (enc, .list [], [])
    | other =>
        let r := validateData cfg raw strip enc other
        (r.1, .list [r.2], [])

/-- One iteration of the main loop of `clean_senddata` (lines 186-206) for
the instruction `kv`, threading the accumulated (encoding, result dict)
pair: the key is itself run through `_validate`, the value is normalized by
`cleanEntry`, the popped options dict is written into the `options` slot of
the keyword part, and the finished `[args, kwargs]` pair is stored under
the validated key. -/
def cleanSendItem (cfg : CleanCfg) (raw strip : Bool)
    (options : List (String × PyData))
    (acc : String × List (String × PyData)) (kv : String × PyData) :
    String × List (String × PyData) :=
  let rKey := validateStr cfg raw strip acc.1 kv.1
  let e := cleanEntry cfg raw strip rKey.1 kv.2
  let kwPart := dictSet e.2.2 "options" (.dict options)
  (e.1, dictSet acc.2 rKey.2 (.list [e.2.1, .dict kwPart]))

/-- `SessionHandler.clean_senddata` (lines 131-207) on the embedded payload,
with the session's encoding passed and returned explicitly (the source
stores it in `session.protocol_flags` and may heal it in place).  The
`options` entry is popped off the payload first (`None` or a falsy value
becomes the empty dict; a truthy non-dict raises `AttributeError` at the
`options.get` calls); each remaining instruction is processed in order by
`cleanSendItem`. -/
def clean_senddata (cfg : CleanCfg) (enc0 : String)
    (kwargs : List (String × PyData)) :
    Except PyErr (String × List (String × PyData)) := do
  let optVal := dictGet kwargs "options"
  let rest := kwargs.filter (fun kv => kv.1 != "options")
  let options : List (String × PyData) ←
    match optVal with
    | Option.none => Except.ok []
    | some v =>
        if pyFalsy v then Except.ok []
        else match v with
          | .dict o => Except.ok o
          | _ => Except.error .attributeError
  let raw := pyTruthy ((dictGet options "raw").getD (.bool false))
  let strip := pyTruthy ((dictGet options "strip_inlinefunc").getD (.bool false))
  Except.ok (rest.foldl (cleanSendItem cfg raw strip options) (enc0, []))

/-- Python `str.lower()` on command names (ASCII case folding, which is all
the input dispatch table uses). -/
def strLower (s : String) : String := String.mk (s.data.map Char.toLower)

/-- Python `str.strip()` on command names: drop leading and trailing
whitespace. -/
def strStrip (s : String) : String :=
  String.mk (((s.data.dropWhile Char.isWhitespace).reverse.dropWhile Char.isWhitespace).reverse)

/-- A server-side input function as the dispatch loop sees it: it receives
the decoded positional and keyword arguments and either finishes, yielding
its game effects (represented as strings), or raises an exception carrying
its message.  The session argument is folded into the closure. -/
def InputFunc : Type := List PyData → List (String × PyData) → Except String (List String)

/-- The observable state the server-side `data_in` loop touches: game
effects performed by handlers, messages echoed back to the session
(`session.msg`), and the error log (`log_trace`). -/
structure DispatchState where
  effects : List String
  msgs : List String
  log : List String
deriving DecidableEq, Repr

/-- `cname in _INPUT_FUNCS` / `_INPUT_FUNCS[cname]` on the registered
input-function table. -/
def lookupInputFunc (funcs : List (String × InputFunc)) (n : String) : Option InputFunc :=
  (funcs.find? (fun kv => kv.1 == n)).map (fun kv => kv.2)

namespace Server

/-- The body of one iteration of the `ServerSessionHandler.data_in` loop
(lines 675-682) up to exception handling: lower-case the stripped command
name, pop `options` from the keyword arguments, and either call the
registered function or fall back to the distinguished `default` function
with the command name as extra first argument (the source keeps `default`
in the same table under the key "default"; it is the `dflt` argument
here). -/
def dispatchResult (funcs : List (String × InputFunc)) (dflt : String → InputFunc)
    (cmdname : String) (args : List PyData) (kwargs : List (String × PyData)) :
    Except String (List String) :=
  let cname := strLower (strStrip cmdname)
  let kw := kwargs.filter (fun kv => kv.1 != "options")
  match lookupInputFunc funcs cname with
  | some f => f args kw
  | Option.none => dflt cname args kw

/-- One full iteration of the `data_in` loop including the `try/except`
(lines 677-686): a normal return appends the handler's effects; an
exception is caught, echoed to the session only when the session's
input-debug flag is set, and always logged. -/
def dispatchStep (funcs : List (String × InputFunc)) (dflt : String → InputFunc)
    (input_debug : Bool) (st : DispatchState)
    (cmd : String × List PyData × List (String × PyData)) : DispatchState :=
  match dispatchResult funcs dflt cmd.1 cmd.2.1 cmd.2.2 with
  | .ok effs => { st with effects := st.effects ++ effs }
  | .error e =>
      { st with msgs := st.msgs ++ (if input_debug then [e] else []),
                log := st.log ++ [e] }

/-- `ServerSessionHandler.data_in` (lines 659-686) for a session: process
every inbound command of the payload in order. -/
def data_in (funcs : List (String × InputFunc)) (dflt : String → InputFunc)
    (input_debug : Bool) (st : DispatchState)
    (cmds : List (String × List PyData × List (String × PyData))) : DispatchState :=
  cmds.foldl (dispatchStep funcs dflt input_debug) st

/-- The game effects a single command contributes (its handler's effects on
success, nothing when its handler raises). -/
def cmdEffects (funcs : List (String × InputFunc)) (dflt : String → InputFunc)
    (cmd : String × List PyData × List (String × PyData)) : List String :=
  match dispatchResult funcs dflt cmd.1 cmd.2.1 cmd.2.2 with
  | .ok effs => effs
  | .error _ => []

end Server

mutual

/-- A send-safe payload value in the sense of the spec (section 3,
SyncPayload invariant): strings, numbers, booleans, None, and nested
lists/dicts of the same — no database objects. -/
def sendSafeData : PyData → Bool
  | .str _ => true
  | .num _ => true
  | .bool _ => true
  | .pynone => true
  | .list xs => sendSafeItems xs
  | .dict xs => sendSafePairs xs
  | .dbobj _ => false

/-- Send-safety of every item of a list. -/
def sendSafeItems : List PyData → Bool
  | [] => true
  | x :: xs => sendSafeData x && sendSafeItems xs

/-- Send-safety of every value of a dict. -/
def sendSafePairs : List (String × PyData) → Bool
  | [] => true
  | kv :: xs => sendSafeData kv.2 && sendSafePairs xs

end

/-! Concrete fixtures used by the witness and counterexample theorems. -/

/-- An empty portal-handler state. -/
def exPortal0 : PortalState :=
  { latest_sessid := 0, queue := [], table := [], connection_last := 0,
    command_counter := 0, command_counter_reset := 0, command_overflow := false,
    sentOps := [], toServer := [], userMsgs := [], protoDisconnects := [],
    scheduled := [] }

/-- A freshly constructed portal session (fields at their defaults). -/
def exPSess : PSession :=
  { sessid := 0, server_connected := false, logged_in := false, cmd_last := 0 }

/-- A portal session with id 1. -/
def exPSess1 : PSession := { exPSess with sessid := 1 }

/-- A portal session with id 9. -/
def exPSess9 : PSession := { exPSess with sessid := 9 }

/-- A portal state holding exactly session 1 in its table. -/
def exPortalTable1 : PortalState := { exPortal0 with table := [(1, exPSess1)] }

/-- A portal state with session 1 waiting in the connection queue. -/
def exPortalQueue1 : PortalState := { exPortal0 with queue := [exPSess1] }

/-- A portal state that just exceeded the command-rate counter (counter 6,
window opened at time 0, flag not yet raised). -/
def exPortalHot : PortalState :=
  { exPortal0 with command_counter := 6, command_counter_reset := 0 }

/-- A portal state with the overflow flag up (counter already reset to 0). -/
def exPortalFlagged : PortalState := { exPortal0 with command_overflow := true }

/-- An empty server-handler state. -/
def exServer0 : ServerState := { table := [], effects := [] }

/-- Server session A: id 1, authenticated as uid 5. -/
def exSessA : SSession :=
  { sessid := 1, logged_in := true, uid := some 5, cmd_last := 0,
    address := "a", player := some 5 }

/-- Server session B: id 2, not yet authenticated. -/
def exSessB : SSession :=
  { sessid := 2, logged_in := false, uid := Option.none, cmd_last := 0,
    address := "b", player := Option.none }

/-- A server state holding the authenticated session A and the anonymous
session B. -/
def exServerAB : ServerState := { table := [exSessA, exSessB], effects := [] }

/-- A server state with one stale session (idle since time 0) and one fresh
session (last command at time 95). -/
def exServerIdle : ServerState :=
  { table := [exSessA, { exSessB with logged_in := true, cmd_last := 95 }],
    effects := [] }

/-- A sync payload marked authenticated for uid 3, session id 7. -/
def exSyncStale : SyncData :=
  { sessid := 7, logged_in := true, uid := some 3, cmd_last := 0, address := "x" }

/-- A cleaning configuration with inline functions disabled, portal-side
handler, every encoding known, and an inert inline parser. -/
def exCleanCfg : CleanCfg :=
  { inlinefuncEnabled := false, isServer := false,
    knownEncoding := fun _ => true, parseInline := fun _ s => s }

/-- A payload in canonical cleaned form whose (inner) options dict is
nonempty: the exact output of `clean_senddata` for the call
`data_out(text=1, options={raw: True})`. -/
def exCleanPayload : List (String × PyData) :=
  [("text", .list [.list [.num 1], .dict [("options", .dict [("raw", .bool true)])]])]

/-- The same payload after a second cleaning pass: the inner options dict
has been overwritten by the (now empty) popped top-level options. -/
def exCleanPayloadWiped : List (String × PyData) :=
  [("text", .list [.list [.num 1], .dict [("options", .dict [])]])]

/-- A canonical payload whose inner options dict is empty. -/
def exCleanStable : List (String × PyData) :=
  [("text", .list [.list [.str "hi"], .dict [("options", .dict [])]])]

/-- The inner options value of the first instruction of a cleaned payload,
tested for emptiness: distinguishes `exCleanPayload` from
`exCleanPayloadWiped`. -/
def firstOptionsEmpty (p : List (String × PyData)) : Bool :=
  match p with
  | (_, .list [_, .dict kw]) :: _ =>
      match dictGet kw "options" with
      | some (.dict o) => o.isEmpty
      | _ => false
  | _ => false

/-- Input-function table for the dispatch witness: a `text` handler that
succeeds and a `bad` handler that raises. -/
def exFuncs : List (String × InputFunc) :=
  [("text", fun _ _ => Except.ok ["text-ok"]),
   ("bad", fun _ _ => Except.error "bang")]

/-- Default input function for the dispatch witness: records the command
name it was handed. -/
def exDflt : String → InputFunc :=
  fun n _ _ => Except.ok [String.append "default-" n]

/-- An empty dispatch state. -/
def exDispatch0 : DispatchState := { effects := [], msgs := [], log := [] }

/-- The session a user notice is addressed to. -/
def noticeTarget : UserNotice → Nat
  | .queued sid _ => sid
  | .overflow sid => sid

/-! Helper lemmas. -/

theorem natBeq_comm (a b : Nat) : (a == b) = (b == a) := by
  simp [Nat.beq_eq, eq_comm]

theorem contains_iff_mem {α : Type} [DecidableEq α] (l : List α) (a : α) :
    l.contains a = true ↔ a ∈ l := by
  simp [List.contains]

theorem mem_of_nodup_map_sessid {t : List SSession}
    (hnd : (t.map SSession.sessid).Nodup) :
    ∀ x ∈ t, ∀ y ∈ t, x.sessid = y.sessid → x = y := by
  intro x hx y hy hxy
  exact List.inj_on_of_nodup_map hnd hx hy hxy

theorem disconnect_table (st : ServerState) (sid : Nat) :
    (Server.disconnect st sid).table = st.table.filter (fun s => s.sessid != sid) := by
  unfold Server.disconnect
  cases h : st.table.find? (fun s => s.sessid == sid) with
  | none =>
      have : ∀ s ∈ st.table, (s.sessid != sid) = true := by
        intro s hs
        have := List.find?_eq_none.mp h s hs
        simpa [bne] using this
      simp [List.filter_eq_self.mpr this]
  | some s => rfl

theorem foldDisc_table (ds : List SSession) (st : ServerState) :
    ((ds.foldl (fun acc s => Server.disconnect acc s.sessid) st)).table =
      st.table.filter (fun s => !(ds.any (fun d => d.sessid == s.sessid))) := by
  induction ds generalizing st with
  | nil =>
      simp
  | cons d ds ih =>
      rw [List.foldl_cons, ih, disconnect_table, List.filter_filter]
      refine List.filter_congr ?_
      intro s _
      simp only [List.any_cons, Bool.not_or, bne]
      rw [natBeq_comm s.sessid d.sessid]
      cases d.sessid == s.sessid <;> simp

theorem updateSess_map_sessid (t : List SSession) (sid : Nat)
    (f : SSession → SSession) (hf : ∀ s, (f s).sessid = s.sessid) :
    (Server.updateSess t sid f).map SSession.sessid = t.map SSession.sessid := by
  unfold Server.updateSess
  rw [List.map_map]
  refine List.map_congr_left ?_
  intro s _
  by_cases h : s.sessid = sid
  · simp [h, hf]
  · simp [h]

theorem mem_updateSess {t : List SSession} {sid : Nat} {f : SSession → SSession}
    {x : SSession} :
    x ∈ Server.updateSess t sid f ↔
      ∃ y ∈ t, x = if y.sessid == sid then f y else y := by
  unfold Server.updateSess
  constructor
  · intro hx
    rcases List.mem_map.mp hx with ⟨y, hy, hxy⟩
    exact ⟨y, hy, hxy.symm⟩
  · rintro ⟨y, hy, rfl⟩
    exact List.mem_map.mpr ⟨y, hy, rfl⟩

/-! Claim C9. -/

/-- C9 counterexample: push three connections through the enqueue block of
`connect` (interval 1 second).  After the second push the queue holds the
two sessions 2 and 1, yet only the newly pushed session 2 ever received a
queued-notice — session 1, although waiting in the queue, got none, so it is
false that every queued session receives the courtesy notice. -/
theorem claim_C9_counterexample :
    (Portal.connect_enqueue 1 (Portal.connect_enqueue 1 exPortal0 exPSess) exPSess).queue.map
        PSession.sessid = [2, 1] ∧
    (Portal.connect_enqueue 1 (Portal.connect_enqueue 1 exPortal0 exPSess) exPSess).userMsgs.map
        noticeTarget = [2] := ⟨rfl, rfl⟩

/-- C9 (amended): pushing a new connection assigns it the next session id,
marks it not yet server-connected, and prepends it to the queue; when the
queue then holds more than one entry, the courtesy queued-notice — with
estimated wait equal to the queue length times the minimum inter-admission
interval — is sent to the *newly pushed* session only; previously queued
sessions receive nothing. -/
theorem claim_C9_queue_notice (iv : ℚ) (st : PortalState) (s : PSession) :
    Portal.connect_enqueue iv st s =
      { st with
          latest_sessid := st.latest_sessid + 1,
          queue := { s with sessid := st.latest_sessid + 1,
                            server_connected := false } :: st.queue,
          userMsgs :=
            if st.queue.length + 1 > 1 then
              st.userMsgs ++ [.queued (st.latest_sessid + 1)
                (((st.queue.length + 1 : Nat) : ℚ) * iv)]
            else st.userMsgs } := rfl

/-! Claim C7. -/

/-- C7 counterexample: disconnecting session 1, which is held in the portal
table and is not queued, sends the `PDISCONN` notification to the peer but
leaves the portal table unchanged — the session is *not* removed from the
local session table by this call, contrary to the claim. -/
theorem claim_C7_counterexample :
    (Portal.disconnect exPortalTable1 exPSess1).table.any (fun kv => kv.1 == 1) = true ∧
    (Portal.disconnect exPortalTable1 exPSess1).table = exPortalTable1.table ∧
    (Portal.disconnect exPortalTable1 exPSess1).sentOps = [(1, PDISCONNop)] :=
  ⟨rfl, rfl, rfl⟩

/-- C7 (amended): a session still waiting in the connection queue is removed
from the queue only, with no sync message to the peer and no other state
change; any other session is reported to the peer with a `PDISCONN`
notification while queue and local table stay untouched (removal from the
portal table happens only later, when the server side instructs
`server_disconnect`). -/
theorem claim_C7_disconnect (st : PortalState) (s : PSession) :
    (s ∈ st.queue → Portal.disconnect st s = { st with queue := st.queue.erase s }) ∧
    (s ∉ st.queue → Portal.disconnect st s =
      { st with sentOps := st.sentOps ++ [(s.sessid, PDISCONNop)] }) := by
  constructor
  · intro h
    unfold Portal.disconnect
    rw [if_pos ((contains_iff_mem _ _).mpr h)]
  · intro h
    unfold Portal.disconnect
    rw [if_neg (fun hc => h ((contains_iff_mem _ _).mp hc))]

/-- C7 witness: both branches of `claim_C7_disconnect` at concrete inputs —
queued session 1 is dropped from the queue silently; non-queued session 9 is
reported to the peer. -/
theorem claim_C7_witness :
    Portal.disconnect exPortalQueue1 exPSess1 = { exPortalQueue1 with queue := [] } ∧
    Portal.disconnect exPortalTable1 exPSess9 =
      { exPortalTable1 with sentOps := [(9, PDISCONNop)] } := by
  constructor
  · rw [(claim_C7_disconnect exPortalQueue1 exPSess1).1 (by decide)]
    rfl
  · rw [(claim_C7_disconnect exPortalTable1 exPSess9).2 (by decide)]
    rfl

/-! Claim C6. -/

/-- C6 (code-bug evidence): with the portal table holding session 1, a
reconciliation `server_session_sync(serversessions={}, clean=True)` — which
per the claim should force-disconnect session 1 and remove it — instead
raises `AttributeError`: the cleanup loop passes the bare int session id to
`server_disconnect`, whose body calls `.disconnect(reason)` on it (the
method docstring even documents the argument as an int session id, so the
body contradicts its own documentation). -/
theorem claim_C6_attributeError :
    Portal.server_session_sync exPortalTable1 [] true =
      Except.error PyErr.attributeError := rfl

/-! Claim C2. -/

/-- C2: command-rate overflow.  First conjunct: when the rolling counter has
passed `maxRate` and the window since the last reset is still under one
second, the incoming message raises the overflow flag, zeroes the counter,
schedules the reset callback one second out, answers the session with only
the overflow warning, and forwards nothing to the server.  Second conjunct:
while the flag is set (the counter is back under the rate, as it always is
once the flag is up), any further message with a session is answered with
only the overflow warning and nothing is forwarded — the flag is not
cleared by inbound traffic.  Third conjunct: the scheduled callback (the
call without a session) is the only thing that clears the flag, and it does
so unconditionally, rescheduling one further check. -/
theorem claim_C2_overflow (maxRate : ℚ) (st : PortalState) (now : ℚ) (s : PSession) :
    (maxRate < (st.command_counter : ℚ) → now - st.command_counter_reset < 1 →
      (Portal.data_in maxRate st now (some s)).command_overflow = true ∧
      (Portal.data_in maxRate st now (some s)).command_counter = 0 ∧
      (Portal.data_in maxRate st now (some s)).userMsgs =
        st.userMsgs ++ [.overflow s.sessid] ∧
      (Portal.data_in maxRate st now (some s)).toServer = st.toServer ∧
      (Portal.data_in maxRate st now (some s)).scheduled = st.scheduled ++ [now + 1]) ∧
    (st.command_overflow = true → (st.command_counter : ℚ) ≤ maxRate →
      Portal.data_in maxRate st now (some s) =
        { st with userMsgs := st.userMsgs ++ [.overflow s.sessid] }) ∧
    (st.command_overflow = true →
      Portal.data_in maxRate st now Option.none =
        { st with command_overflow := false, scheduled := st.scheduled ++ [now + 1] }) := by
  refine ⟨?_, ?_, ?_⟩
  · intro h1 h2
    simp [Portal.data_in, h1, h2]
  · intro h1 h2
    simp [Portal.data_in, h1, not_lt.mpr h2]
  · intro h1
    simp [Portal.data_in, h1]

/-- C2 witness: all three parts of `claim_C2_overflow` at concrete inputs —
the 7th message inside the 1-second window (counter 6, rate 5) raises the
flag; with the flag up a message is answered with only the warning; the
scheduled callback lowers the flag. -/
theorem claim_C2_witness :
    (Portal.data_in 5 exPortalHot 0 (some exPSess9)).command_overflow = true ∧
    Portal.data_in 5 exPortalFlagged 0 (some exPSess9) =
      { exPortalFlagged with userMsgs := [UserNotice.overflow 9] } ∧
    Portal.data_in 5 exPortalFlagged 0 Option.none =
      { exPortalFlagged with command_overflow := false, scheduled := [0 + 1] } := by
  refine ⟨((claim_C2_overflow 5 exPortalHot 0 exPSess9).1
      (by norm_num [exPortalHot, exPortal0]) (by norm_num [exPortalHot, exPortal0])).1,
    ?_, ?_⟩
  · rw [(claim_C2_overflow 5 exPortalFlagged 0 exPSess9).2.1 rfl
      (by norm_num [exPortalFlagged, exPortal0])]
    rfl
  · rw [(claim_C2_overflow 5 exPortalFlagged 0 exPSess9).2.2 rfl]
    rfl

/-! Claim C5. -/

/-- C5: the idle sweep.  First conjunct: `validate_sessions` keeps exactly
the sessions that are not (logged in with a positive configured timeout and
an idle span strictly over it), and it keeps them unchanged (the result is
a filter of the original table).  Second conjunct: a stored session is
removed if and only if it is authenticated, the timeout is positive, and
its idle time exceeds it.  Third conjunct: a zero or negative timeout
disables the sweep completely. -/
theorem claim_C5_idle (timeout tcurr : ℚ) (st : ServerState)
    (hnd : (st.table.map SSession.sessid).Nodup) :
    ((Server.validate_sessions timeout tcurr st).table =
        st.table.filter (fun s =>
          !(s.logged_in && decide (0 < timeout) && decide (timeout < tcurr - s.cmd_last)))) ∧
    (∀ s ∈ st.table,
        (¬ s.sessid ∈ (Server.validate_sessions timeout tcurr st).table.map SSession.sessid) ↔
          (s.logged_in = true ∧ 0 < timeout ∧ timeout < tcurr - s.cmd_last)) ∧
    (timeout ≤ 0 → (Server.validate_sessions timeout tcurr st).table = st.table) := by
  have hfold :
      (Server.validate_sessions timeout tcurr st).table =
        st.table.filter (fun s =>
          !((st.table.filter (fun d => d.logged_in && decide (0 < timeout) &&
              decide (timeout < tcurr - d.cmd_last))).any (fun d => d.sessid == s.sessid))) := by
    unfold Server.validate_sessions
    exact foldDisc_table _ _
  have hpoint : ∀ s ∈ st.table,
      ((st.table.filter (fun d => d.logged_in && decide (0 < timeout) &&
          decide (timeout < tcurr - d.cmd_last))).any (fun d => d.sessid == s.sessid)) =
        (s.logged_in && decide (0 < timeout) && decide (timeout < tcurr - s.cmd_last)) := by
    intro s hs
    cases hps : (s.logged_in && decide (0 < timeout) && decide (timeout < tcurr - s.cmd_last)) with
    | true =>
        apply List.any_eq_true.mpr
        exact ⟨s, List.mem_filter.mpr ⟨hs, hps⟩, by simp⟩
    | false =>
        apply List.any_eq_false.mpr
        intro d hd
        have hd' := List.mem_filter.mp hd
        intro hbeq
        have hdeq : d = s :=
          mem_of_nodup_map_sessid hnd d hd'.1 s hs (by simpa using hbeq)
        have h2 := hd'.2
        rw [hdeq] at h2
        rw [hps] at h2
        exact Bool.noConfusion h2
  have htab : (Server.validate_sessions timeout tcurr st).table =
      st.table.filter (fun s =>
        !(s.logged_in && decide (0 < timeout) && decide (timeout < tcurr - s.cmd_last))) := by
    rw [hfold]
    refine List.filter_congr ?_
    intro s hs
    rw [hpoint s hs]
  refine ⟨htab, ?_, ?_⟩
  · intro s hs
    constructor
    · intro hnot
      by_contra hcon
      have hps : (s.logged_in && decide (0 < timeout) &&
          decide (timeout < tcurr - s.cmd_last)) = false := by
        cases hpe : (s.logged_in && decide (0 < timeout) &&
            decide (timeout < tcurr - s.cmd_last)) with
        | false => rfl
        | true =>
            exfalso
            apply hcon
            have := hpe
            simp only [Bool.and_eq_true, decide_eq_true_eq] at this
            exact ⟨this.1.1, this.1.2, this.2⟩
      have hmem : s ∈ (Server.validate_sessions timeout tcurr st).table := by
        rw [htab]
        exact List.mem_filter.mpr ⟨hs, by rw [hps]; rfl⟩
      exact hnot (List.mem_map.mpr ⟨s, hmem, rfl⟩)
    · intro hconj hmem
      rcases List.mem_map.mp hmem with ⟨x, hx, hxs⟩
      rw [htab] at hx
      have hx' := List.mem_filter.mp hx
      have hxeq : x = s := mem_of_nodup_map_sessid hnd x hx'.1 s hs hxs
      have h2 := hx'.2
      rw [hxeq] at h2
      have hps : (s.logged_in && decide (0 < timeout) &&
          decide (timeout < tcurr - s.cmd_last)) = true := by
        simp [Bool.and_eq_true, decide_eq_true_eq, hconj.1, hconj.2.1, hconj.2.2]
      rw [hps] at h2
      exact Bool.noConfusion h2
  · intro hto
    rw [htab]
    apply List.filter_eq_self.mpr
    intro s hs
    have hdec : decide (0 < timeout) = false := decide_eq_false (not_lt.mpr hto)
    simp [hdec]

/-- C5 witness: with timeout 10 and the clock at 100, the authenticated
session 1 (last command at time 0, idle 100) is swept while the
authenticated session 2 (last command at 95, idle 5) survives; with
timeout 0 the sweep is disabled and the table is untouched. -/
theorem claim_C5_witness :
    (¬ 1 ∈ (Server.validate_sessions 10 100 exServerIdle).table.map SSession.sessid) ∧
    (2 ∈ (Server.validate_sessions 10 100 exServerIdle).table.map SSession.sessid) ∧
    (Server.validate_sessions 0 100 exServerIdle).table = exServerIdle.table := by
  refine ⟨?_, ?_, ?_⟩
  · exact ((claim_C5_idle 10 100 exServerIdle (by decide)).2.1 exSessA
      (by decide)).mpr ⟨rfl, by norm_num, by norm_num [exSessA]⟩
  · by_contra hn
    have h2 := ((claim_C5_idle 10 100 exServerIdle (by decide)).2.1
      { exSessB with logged_in := true, cmd_last := 95 } (by decide)).mp hn
    exact absurd h2.2.2 (by norm_num [exSessB])
  · exact (claim_C5_idle 0 100 exServerIdle (by decide)).2.2 (le_refl 0)

/-! Claim C10. -/

theorem exists_mem_tableSet_sessid (t : List SSession) (s : SSession) :
    ∃ x ∈ Server.tableSet t s, x.sessid = s.sessid := by
  unfold Server.tableSet
  by_cases h : t.any (fun x => x.sessid == s.sessid) = true
  · rw [if_pos h]
    rcases List.any_eq_true.mp h with ⟨y, hy, hys⟩
    exact ⟨s, List.mem_map.mpr ⟨y, hy, by rw [if_pos hys]⟩, rfl⟩
  · rw [if_neg h]
    exact ⟨s, List.mem_append.mpr (Or.inr (List.mem_singleton.mpr rfl)), rfl⟩

/-- C10: a sync payload that claims to be authenticated (logged in, with a
truthy uid) whose uid resolves to no existing player does not raise and
does not keep the stale state: the freshly stored session is demoted to
anonymous — logged_in lowered, uid cleared — and the normal first-login
prompt is issued, exactly as for an anonymous connection. -/
theorem claim_C10_stale_auth (mm : Nat) (pex : Nat → Bool) (st : ServerState)
    (d : SyncData) (u : Nat)
    (hli : d.logged_in = true) (huid : d.uid = some u) (hu : u ≠ 0)
    (hpe : pex u = false) :
    ((Server.portal_connect mm pex st d).effects =
      st.effects ++ [.prompt d.sessid Server.loginStartCmd]) ∧
    (∃ s ∈ (Server.portal_connect mm pex st d).table, s.sessid = d.sessid) ∧
    (∀ s ∈ (Server.portal_connect mm pex st d).table, s.sessid = d.sessid →
      s.logged_in = false ∧ s.uid = Option.none) := by
  have hcond : ((load_sync_data d).logged_in && Server.uidTruthy (load_sync_data d).uid) = true := by
    simp [load_sync_data, Server.uidTruthy, hli, huid, hu]
  have hgetD : (load_sync_data d).uid.getD 0 = u := by simp [load_sync_data, huid]
  have hpex : ¬ (pex ((load_sync_data d).uid.getD 0) = true) := by
    rw [hgetD, hpe]; exact Bool.noConfusion
  unfold Server.portal_connect
  rw [if_pos hcond, if_neg hpex]
  refine ⟨rfl, ?_, ?_⟩
  · rcases exists_mem_tableSet_sessid st.table (load_sync_data d) with ⟨x, hx, hxs⟩
    have hx2 : ({ x with logged_in := false, uid := Option.none } : SSession) ∈
        Server.updateSess (Server.tableSet st.table (load_sync_data d))
          (load_sync_data d).sessid
          (fun s => { s with logged_in := false, uid := Option.none }) := by
      apply mem_updateSess.mpr
      refine ⟨x, hx, ?_⟩
      rw [if_pos (by simp [hxs])]
    exact ⟨_, hx2, hxs⟩
  · intro s hs heq
    rcases mem_updateSess.mp hs with ⟨y, hy, hsy⟩
    cases hb : (y.sessid == (load_sync_data d).sessid) with
    | true =>
        rw [if_pos hb] at hsy
        subst hsy
        exact ⟨rfl, rfl⟩
    | false =>
        rw [if_neg (by rw [hb]; exact Bool.noConfusion)] at hsy
        subst hsy
        exact absurd heq (by simpa using hb)

/-- C10 witness: a payload for session 7, marked logged in as uid 3, against
an empty player database: the stored session carries the prompt effect and
is anonymous. -/
theorem claim_C10_witness :
    ((Server.portal_connect 0 (fun _ => false) exServer0 exSyncStale).effects =
      [.prompt 7 Server.loginStartCmd]) ∧
    (∃ s ∈ (Server.portal_connect 0 (fun _ => false) exServer0 exSyncStale).table,
      s.sessid = 7) ∧
    (∀ s ∈ (Server.portal_connect 0 (fun _ => false) exServer0 exSyncStale).table,
      s.sessid = 7 → s.logged_in = false ∧ s.uid = Option.none) :=
  claim_C10_stale_auth 0 (fun _ => false) exServer0 exSyncStale 3 rfl rfl
    (by decide) rfl

/-! Claim C4. -/

/-- C4: the server-side `data_in` dispatch.  First conjunct: a command whose
stripped, lower-cased name is registered runs that handler on the
positional arguments and the keyword arguments with `options` popped.
Second conjunct: an unrecognized name is routed to the distinguished
default handler, which receives the (lower-cased) command name as an extra
first argument.  Third conjunct: an exception from a handler is caught —
the step completes, the error is echoed to the session exactly when the
input-debug flag is set, and it is always logged.  Fourth conjunct: the
loop processes every command regardless of failures elsewhere: the game
effects of a batch are precisely the concatenation of each command's own
contribution, so a failing command (contributing nothing) never aborts or
alters the processing of the remaining commands. -/
theorem claim_C4_dispatch (funcs : List (String × InputFunc)) (dflt : String → InputFunc)
    (dbg : Bool) (st : DispatchState) :
    (∀ n args kw f, lookupInputFunc funcs (strLower (strStrip n)) = some f →
      Server.dispatchResult funcs dflt n args kw =
        f args (kw.filter (fun kv => kv.1 != "options"))) ∧
    (∀ n args kw, lookupInputFunc funcs (strLower (strStrip n)) = Option.none →
      Server.dispatchResult funcs dflt n args kw =
        dflt (strLower (strStrip n)) args (kw.filter (fun kv => kv.1 != "options"))) ∧
    (∀ cmd e, Server.dispatchResult funcs dflt cmd.1 cmd.2.1 cmd.2.2 = Except.error e →
      Server.dispatchStep funcs dflt dbg st cmd =
        { st with msgs := st.msgs ++ (if dbg then [e] else []),
                  log := st.log ++ [e] }) ∧
    (∀ cmds, (Server.data_in funcs dflt dbg st cmds).effects =
      st.effects ++ (cmds.map (Server.cmdEffects funcs dflt)).flatten) := by
  refine ⟨?_, ?_, ?_, ?_⟩
  · intro n args kw f hf
    simp only [Server.dispatchResult]
    rw [hf]
  · intro n args kw hf
    simp only [Server.dispatchResult]
    rw [hf]
  · intro cmd e he
    simp only [Server.dispatchStep]
    rw [he]
  · intro cmds
    induction cmds generalizing st with
    | nil => simp [Server.data_in]
    | cons c cs ih =>
        have hstep : (Server.dispatchStep funcs dflt dbg st c).effects =
            st.effects ++ Server.cmdEffects funcs dflt c := by
          cases hr : Server.dispatchResult funcs dflt c.1 c.2.1 c.2.2 with
          | ok effs => simp [Server.dispatchStep, Server.cmdEffects, hr]
          | error e => simp [Server.dispatchStep, Server.cmdEffects, hr]
        have hcons : Server.data_in funcs dflt dbg st (c :: cs) =
            Server.data_in funcs dflt dbg (Server.dispatchStep funcs dflt dbg st c) cs := rfl
        rw [hcons, ih, hstep, List.map_cons, List.flatten_cons, List.append_assoc]

/-- C4 witness: with a table registering `text` (succeeding) and `bad`
(raising), the command name " TeXt " is stripped, lower-cased and
dispatched to the `text` handler; the unknown name "nope" reaches the
default handler together with its own name; the raising `bad` command is
caught, echoed (debug on) and logged; and a batch with `bad` before `text`
still performs the `text` effect. -/
theorem claim_C4_witness :
    Server.dispatchResult exFuncs exDflt " TeXt " [] [] = Except.ok ["text-ok"] ∧
    Server.dispatchResult exFuncs exDflt "nope" [] [] = Except.ok ["default-nope"] ∧
    Server.dispatchStep exFuncs exDflt true exDispatch0 ("bad", [], []) =
      { exDispatch0 with msgs := ["bang"], log := ["bang"] } ∧
    (Server.data_in exFuncs exDflt true exDispatch0
        [("bad", [], []), ("text", [], [])]).effects = ["text-ok"] := by
  have h := claim_C4_dispatch exFuncs exDflt true exDispatch0
  refine ⟨?_, ?_, ?_, ?_⟩
  · rw [h.1 " TeXt " [] [] (fun _ _ => Except.ok ["text-ok"]) rfl]
  · rw [h.2.1 "nope" [] [] rfl]
    rfl
  · rw [h.2.2.1 ("bad", [], []) "bang" rfl]
    rfl
  · rw [h.2.2.2 [("bad", [], []), ("text", [], [])]]
    rfl

/-! Claim C1. -/

theorem mem_updateSess_of_ne {t : List SSession} {sid : Nat} {f : SSession → SSession}
    {z : SSession} (hz : z ∈ t) (hne : z.sessid ≠ sid) :
    z ∈ Server.updateSess t sid f := by
  apply mem_updateSess.mpr
  refine ⟨z, hz, ?_⟩
  rw [if_neg (by simpa using hne)]

theorem sessid_of_updateSess_branch {sid : Nat} {f : SSession → SSession}
    (hf : ∀ s, (f s).sessid = s.sessid) (z : SSession) :
    (if z.sessid == sid then f z else z).sessid = z.sessid := by
  by_cases h : z.sessid == sid
  · rw [if_pos h]; exact hf z
  · rw [if_neg h]

/-- C1: under single-session policy (`MULTISESSION_MODE = 0`), logging the
player with uid `U` in on session `B` (stored in the handler; not already
logged in, or forced) removes every *other* stored authenticated session
carrying uid `U` from the table, and afterwards the table holds exactly one
authenticated session with uid `U`: session `B` itself, now logged in and
bound to `U`. -/
theorem claim_C1_single_session (st : ServerState) (B : SSession) (U : Nat) (force : Bool)
    (hnd : (st.table.map SSession.sessid).Nodup)
    (hB : B ∈ st.table)
    (hguard : B.logged_in = false ∨ force = true) :
    (∀ A ∈ st.table, A.logged_in = true → A.uid = some U → A.sessid ≠ B.sessid →
      ¬ A.sessid ∈ (Server.login 0 st B U force false).table.map SSession.sessid) ∧
    ({ B with uid := some U, player := some U, logged_in := true } ∈
      (Server.login 0 st B U force false).table) ∧
    (∀ s ∈ (Server.login 0 st B U force false).table,
      s.logged_in = true → s.uid = some U →
      s = { B with uid := some U, player := some U, logged_in := true }) := by
  have hg : (B.logged_in && !force) = false := by
    rcases hguard with h | h <;> simp [h]
  have hf1pres : ∀ s : SSession,
      (({ s with uid := some U, player := some U } : SSession)).sessid = s.sessid :=
    fun _ => rfl
  have hlogin : (Server.login 0 st B U force false).table =
      Server.updateSess
        (Server.disconnect_duplicate_sessions
          (ServerState.mk
            (Server.updateSess st.table B.sessid
              (fun s => { s with uid := some U, player := some U }))
            st.effects)
          { B with uid := some U, player := some U }).table
        B.sessid (fun s => { s with logged_in := true }) := by
    unfold Server.login
    rw [hg]
    simp
  have hdd : (Server.disconnect_duplicate_sessions
        (ServerState.mk
          (Server.updateSess st.table B.sessid
            (fun s => { s with uid := some U, player := some U }))
          st.effects)
        { B with uid := some U, player := some U }).table =
      (Server.updateSess st.table B.sessid
          (fun s => { s with uid := some U, player := some U })).filter
        (fun s => !(((Server.updateSess st.table B.sessid
            (fun s => { s with uid := some U, player := some U })).filter
          (fun s => s.logged_in && (s.uid == some U) && (s.sessid != B.sessid))).any
            (fun d => d.sessid == s.sessid))) := by
    unfold Server.disconnect_duplicate_sessions
    exact foldDisc_table _ _
  have hsid1 : (Server.updateSess st.table B.sessid
      (fun s => { s with uid := some U, player := some U })).map SSession.sessid =
        st.table.map SSession.sessid :=
    updateSess_map_sessid _ _ _ hf1pres
  have hnd1 : ((Server.updateSess st.table B.sessid
      (fun s => { s with uid := some U, player := some U })).map SSession.sessid).Nodup := by
    rw [hsid1]; exact hnd
  refine ⟨?_, ?_, ?_⟩
  · intro A hA hAli hAuid hAne hmem
    rw [hlogin] at hmem
    rw [updateSess_map_sessid _ B.sessid
      (fun s => { s with logged_in := true }) (fun _ => rfl)] at hmem
    rw [hdd] at hmem
    rcases List.mem_map.mp hmem with ⟨x, hx, hxs⟩
    have hx' := List.mem_filter.mp hx
    rcases mem_updateSess.mp hx'.1 with ⟨z, hz, hxz⟩
    have hxzs : x.sessid = z.sessid := by
      rw [hxz]; exact sessid_of_updateSess_branch hf1pres z
    have hzA : z = A :=
      mem_of_nodup_map_sessid hnd z hz A hA (by rw [← hxzs, hxs])
    subst hzA
    have hxA : x = z := by
      rw [hxz, if_neg (by simpa using hAne)]
    subst hxA
    have hzin1 : x ∈ Server.updateSess st.table B.sessid
        (fun s => { s with uid := some U, player := some U }) :=
      mem_updateSess_of_ne hz hAne
    have hpA : (x.logged_in && (x.uid == some U) && (x.sessid != B.sessid)) = true := by
      simp [hAli, hAuid, bne, hAne]
    have hany : ((Server.updateSess st.table B.sessid
        (fun s => { s with uid := some U, player := some U })).filter
          (fun s => s.logged_in && (s.uid == some U) && (s.sessid != B.sessid))).any
        (fun d => d.sessid == x.sessid) = true := by
      apply List.any_eq_true.mpr
      exact ⟨x, List.mem_filter.mpr ⟨hzin1, hpA⟩, by simp⟩
    rw [hany] at hx'
    exact Bool.noConfusion hx'.2
  · have hBbeq : (B.sessid == B.sessid) = true := by simp
    have hf1B : ({ B with uid := some U, player := some U } : SSession) ∈
        Server.updateSess st.table B.sessid
          (fun s => { s with uid := some U, player := some U }) := by
      apply mem_updateSess.mpr
      exact ⟨B, hB, by rw [if_pos hBbeq]⟩
    have hkeep : (!(((Server.updateSess st.table B.sessid
        (fun s => { s with uid := some U, player := some U })).filter
          (fun s => s.logged_in && (s.uid == some U) && (s.sessid != B.sessid))).any
        (fun d => d.sessid ==
          ({ B with uid := some U, player := some U } : SSession).sessid))) = true := by
      rw [Bool.not_eq_true']
      apply List.any_eq_false.mpr
      intro d hd hbeq
      have hd' := List.mem_filter.mp hd
      have hdB : d = { B with uid := some U, player := some U } :=
        List.inj_on_of_nodup_map hnd1 hd'.1 hf1B (by simpa using hbeq)
      have h2 := hd'.2
      rw [hdB] at h2
      simp [bne] at h2
    rw [hlogin]
    apply mem_updateSess.mpr
    refine ⟨{ B with uid := some U, player := some U }, ?_, ?_⟩
    · rw [hdd]
      exact List.mem_filter.mpr ⟨hf1B, hkeep⟩
    · rw [if_pos hBbeq]
  · intro s hs hsli hsuid
    rw [hlogin] at hs
    rcases mem_updateSess.mp hs with ⟨y, hy, hsy⟩
    rw [hdd] at hy
    have hy' := List.mem_filter.mp hy
    rcases mem_updateSess.mp hy'.1 with ⟨z, hz, hyz⟩
    by_cases hbz : z.sessid = B.sessid
    · have hzB : z = B := mem_of_nodup_map_sessid hnd z hz B hB hbz
      subst hzB
      have hyB : y = { z with uid := some U, player := some U } := by
        rw [hyz, if_pos (by simp [hbz])]
      have hys : y.sessid = z.sessid := by rw [hyB]
      rw [hsy, if_pos (by simp [hys, hbz])]
      rw [hyB]
    · have hyz2 : y = z := by
        rw [hyz, if_neg (by simpa using hbz)]
      have hsz : s = z := by
        rw [hsy, hyz2, if_neg (by simpa using hbz)]
      have hzli : z.logged_in = true := by rw [← hsz]; exact hsli
      have hzuid : z.uid = some U := by rw [← hsz]; exact hsuid
      have hz1 : z ∈ Server.updateSess st.table B.sessid
          (fun s => { s with uid := some U, player := some U }) := by
        rw [← hyz2]; exact hy'.1
      have hpz : (z.logged_in && (z.uid == some U) && (z.sessid != B.sessid)) = true := by
        simp [hzli, hzuid, bne, hbz]
      have hany : ((Server.updateSess st.table B.sessid
          (fun s => { s with uid := some U, player := some U })).filter
            (fun s => s.logged_in && (s.uid == some U) && (s.sessid != B.sessid))).any
          (fun d => d.sessid == y.sessid) = true := by
        apply List.any_eq_true.mpr
        exact ⟨z, List.mem_filter.mpr ⟨hz1, hpz⟩, by simp [hyz2]⟩
      rw [hany] at hy'
      exact Bool.noConfusion hy'.2

/-- C1 witness: with session 1 authenticated as uid 5 and the fresh session
2 in the handler, logging uid 5 in on session 2 (single-session policy)
evicts session 1 and leaves session 2 as the one authenticated session of
uid 5. -/
theorem claim_C1_witness :
    (¬ 1 ∈ (Server.login 0 exServerAB exSessB 5 false false).table.map SSession.sessid) ∧
    ({ exSessB with uid := some 5, player := some 5, logged_in := true } ∈
      (Server.login 0 exServerAB exSessB 5 false false).table) := by
  have h := claim_C1_single_session exServerAB exSessB 5 false (by decide)
    (by decide) (Or.inl rfl)
  exact ⟨h.1 exSessA (by decide) rfl rfl (by decide), h.2.1⟩

/-! Claim C3. -/

theorem syncRebuild_sessid (pex : Nat → Bool) (kv : Nat × SyncData) :
    (Server.syncRebuild pex kv).sessid = kv.2.sessid := by
  unfold Server.syncRebuild
  by_cases h : Server.uidTruthy (load_sync_data kv.2).uid = true
  · rw [if_pos h]; rfl
  · rw [if_neg h]; rfl

theorem syncRebuild_logged_in (pex : Nat → Bool) (kv : Nat × SyncData) :
    (Server.syncRebuild pex kv).logged_in = kv.2.logged_in := by
  unfold Server.syncRebuild
  by_cases h : Server.uidTruthy (load_sync_data kv.2).uid = true
  · rw [if_pos h]; rfl
  · rw [if_neg h]; rfl

theorem foldTableSet_append (pex : Nat → Bool) :
    ∀ (data : List (Nat × SyncData)) (acc : List SSession),
      (∀ kv ∈ data, ∀ x ∈ acc, x.sessid ≠ kv.2.sessid) →
      ((data.map (fun kv => kv.2.sessid)).Nodup) →
      data.foldl (fun t kv => Server.tableSet t (Server.syncRebuild pex kv)) acc =
        acc ++ data.map (fun kv => Server.syncRebuild pex kv) := by
  intro data
  induction data with
  | nil => intro acc _ _; simp
  | cons kv rest ih =>
      intro acc hdisj hnd
      rw [List.foldl_cons]
      have hnotin : acc.any (fun x => x.sessid == (Server.syncRebuild pex kv).sessid) = false := by
        apply List.any_eq_false.mpr
        intro x hx hbeq
        refine hdisj kv (List.mem_cons_self kv rest) x hx ?_
        rw [syncRebuild_sessid] at hbeq
        simpa using hbeq
      have hts : Server.tableSet acc (Server.syncRebuild pex kv) =
          acc ++ [Server.syncRebuild pex kv] := by
        unfold Server.tableSet
        rw [if_neg (by rw [hnotin]; exact Bool.noConfusion)]
      rw [hts, ih (acc ++ [Server.syncRebuild pex kv]) ?hdisj ?hnd]
      · simp
      case hdisj =>
        intro kv2 hkv2 x hx
        rcases List.mem_append.mp hx with hx1 | hx1
        · exact hdisj kv2 (List.mem_cons_of_mem _ hkv2) x hx1
        · have hx2 : x = Server.syncRebuild pex kv := List.mem_singleton.mp hx1
          rw [hx2, syncRebuild_sessid]
          intro heq
          exact (List.nodup_cons.mp hnd).1 (List.mem_map.mpr ⟨kv2, hkv2, heq.symm⟩)
      case hnd => exact (List.nodup_cons.mp hnd).2

/-- C3: full-resync round trip.  Serialize every stored session with
`get_all_sync_data`, clear the handler, rebuild it with
`portal_sessions_sync` from that serialized dict: the rebuilt table carries
exactly the same session ids with the same authentication flags, in the
same order, as the original. -/
theorem claim_C3_roundtrip (pex : Nat → Bool) (st : ServerState)
    (hnd : (st.table.map SSession.sessid).Nodup) :
    (Server.portal_sessions_sync pex (ServerState.mk [] st.effects)
        (get_all_sync_data st)).table.map (fun s => (s.sessid, s.logged_in)) =
      st.table.map (fun s => (s.sessid, s.logged_in)) := by
  have hids : (get_all_sync_data st).map (fun kv => kv.2.sessid) =
      st.table.map SSession.sessid := by
    unfold get_all_sync_data
    rw [List.map_map]
    rfl
  have hfold := foldTableSet_append pex (get_all_sync_data st) []
    (by intro kv _ x hx; exact absurd hx (List.not_mem_nil x))
    (by rw [hids]; exact hnd)
  unfold Server.portal_sessions_sync
  rw [hfold]
  rw [List.nil_append, List.map_map]
  unfold get_all_sync_data
  rw [List.map_map]
  refine List.map_congr_left ?_
  intro s _
  show ((Server.syncRebuild pex (s.sessid, get_sync_data s)).sessid,
    (Server.syncRebuild pex (s.sessid, get_sync_data s)).logged_in) = (s.sessid, s.logged_in)
  rw [syncRebuild_sessid, syncRebuild_logged_in]
  rfl

/-- C3 witness: the round trip on a two-session handler (session 1
authenticated, session 2 anonymous) reproduces ids and flags. -/
theorem claim_C3_witness :
    (Server.portal_sessions_sync (fun _ => true) (ServerState.mk [] exServerAB.effects)
        (get_all_sync_data exServerAB)).table.map (fun s => (s.sessid, s.logged_in)) =
      [(1, true), (2, false)] :=
  (claim_C3_roundtrip (fun _ => true) exServerAB (by decide)).trans (by decide)

/-! Claim C8. -/

theorem validateStr_id (cfg : CleanCfg) (raw strip : Bool) (enc : String)
    (hk : cfg.knownEncoding enc = true) (hi : ∀ b s, cfg.parseInline b s = s)
    (s : String) : validateStr cfg raw strip enc s = (enc, s) := by
  simp [validateStr, hk, hi]

mutual

theorem validateData_id (cfg : CleanCfg) (raw strip : Bool) (enc : String)
    (hk : cfg.knownEncoding enc = true) (hi : ∀ b s, cfg.parseInline b s = s) :
    ∀ d : PyData, sendSafeData d = true → validateData cfg raw strip enc d = (enc, d)
  | .str s => fun _ => by
      simp [validateData, validateStr_id cfg raw strip enc hk hi]
  | .num n => fun _ => by simp [validateData]
  | .bool b => fun _ => by simp [validateData]
  | .pynone => fun _ => by simp [validateData]
  | .dbobj r => fun h => by simp [sendSafeData] at h
  | .list xs => fun h => by
      have h2 : sendSafeItems xs = true := by simpa [sendSafeData] using h
      simp [validateData, validateItems_id cfg raw strip enc hk hi xs h2]
  | .dict xs => fun h => by
      have h2 : sendSafePairs xs = true := by simpa [sendSafeData] using h
      simp [validateData, validatePairs_id cfg raw strip enc hk hi xs h2]

theorem validateItems_id (cfg : CleanCfg) (raw strip : Bool) (enc : String)
    (hk : cfg.knownEncoding enc = true) (hi : ∀ b s, cfg.parseInline b s = s) :
    ∀ xs : List PyData, sendSafeItems xs = true →
      validateItems cfg raw strip enc xs = (enc, xs)
  | [] => fun _ => by simp [validateItems]
  | x :: xs => fun h => by
      have h1 : sendSafeData x = true := by
        have := h
        simp only [sendSafeItems, Bool.and_eq_true] at this
        exact this.1
      have h2 : sendSafeItems xs = true := by
        have := h
        simp only [sendSafeItems, Bool.and_eq_true] at this
        exact this.2
      simp [validateItems, validateData_id cfg raw strip enc hk hi x h1,
        validateItems_id cfg raw strip enc hk hi xs h2]

theorem validatePairs_id (cfg : CleanCfg) (raw strip : Bool) (enc : String)
    (hk : cfg.knownEncoding enc = true) (hi : ∀ b s, cfg.parseInline b s = s) :
    ∀ ps : List (String × PyData), sendSafePairs ps = true →
      validatePairs cfg raw strip enc ps = (enc, ps)
  | [] => fun _ => by simp [validatePairs]
  | kv :: ps => fun h => by
      have h1 : sendSafeData kv.2 = true := by
        have := h
        simp only [sendSafePairs, Bool.and_eq_true] at this
        exact this.1
      have h2 : sendSafePairs ps = true := by
        have := h
        simp only [sendSafePairs, Bool.and_eq_true] at this
        exact this.2
      simp [validatePairs, validateData_id cfg raw strip enc hk hi kv.2 h1,
        validatePairs_id cfg raw strip enc hk hi ps h2]

end

theorem cleanEntry_canonical (cfg : CleanCfg) (raw strip : Bool) (enc : String)
    (hk : cfg.knownEncoding enc = true) (hi : ∀ b s, cfg.parseInline b s = s)
    (args : List PyData) (kwd : List (String × PyData))
    (hargs : sendSafeItems args = true) (hkwd : sendSafePairs kwd = true) :
    cleanEntry cfg raw strip enc (PyData.list [PyData.list args, PyData.dict kwd]) =
      (enc, PyData.list args, kwd) := by
  have hsa : sendSafeData (PyData.list args) = true := by
    simpa [sendSafeData] using hargs
  unfold cleanEntry
  simp [pyFalsy, pyHasIter,
    validateData_id cfg raw strip enc hk hi (PyData.list args) hsa,
    validatePairs_id cfg raw strip enc hk hi kwd hkwd]

theorem dictSet_of_mem_uniq {kwd : List (String × PyData)}
    (hmem : ("options", PyData.dict []) ∈ kwd)
    (huniq : ∀ e ∈ kwd, e.1 = "options" → e = ("options", PyData.dict [])) :
    dictSet kwd "options" (PyData.dict []) = kwd := by
  unfold dictSet
  have hany : kwd.any (fun kv => kv.1 == "options") = true :=
    List.any_eq_true.mpr ⟨("options", PyData.dict []), hmem, by simp⟩
  rw [if_pos hany]
  have hpt : ∀ e ∈ kwd,
      (if e.1 == "options" then ("options", PyData.dict []) else e) = e := by
    intro e he
    by_cases h : e.1 = "options"
    · rw [if_pos (by simp [h])]
      exact (huniq e he h).symm
    · rw [if_neg (by simp [h])]
  rw [List.map_congr_left hpt, List.map_id']

theorem dictSet_append {kwd : List (String × PyData)} {k : String} {v : PyData}
    (h : kwd.any (fun kv => kv.1 == k) = false) :
    dictSet kwd k v = kwd ++ [(k, v)] := by
  unfold dictSet
  rw [if_neg (by rw [h]; exact Bool.noConfusion)]

theorem cleanSendItem_canonical (cfg : CleanCfg) (raw strip : Bool) (enc : String)
    (rk : List (String × PyData))
    (hk : cfg.knownEncoding enc = true) (hi : ∀ b s, cfg.parseInline b s = s)
    (kv : String × PyData) (args : List PyData) (kwd : List (String × PyData))
    (hshape : kv.2 = PyData.list [PyData.list args, PyData.dict kwd])
    (hargs : sendSafeItems args = true) (hkwd : sendSafePairs kwd = true)
    (hmem : ("options", PyData.dict []) ∈ kwd)
    (huniq : ∀ e ∈ kwd, e.1 = "options" → e = ("options", PyData.dict [])) :
    cleanSendItem cfg raw strip [] (enc, rk) kv = (enc, dictSet rk kv.1 kv.2) := by
  unfold cleanSendItem
  simp only [validateStr_id cfg raw strip enc hk hi, hshape,
    cleanEntry_canonical cfg raw strip enc hk hi args kwd hargs hkwd,
    dictSet_of_mem_uniq hmem huniq]

theorem cleanFold_id (cfg : CleanCfg) (raw strip : Bool) (enc : String)
    (hk : cfg.knownEncoding enc = true) (hi : ∀ b s, cfg.parseInline b s = s) :
    ∀ (p rk : List (String × PyData)),
      (p.map Prod.fst).Nodup →
      (∀ kv ∈ p, ∀ e ∈ rk, e.1 ≠ kv.1) →
      (∀ kv ∈ p, ∃ args kwd,
        kv.2 = PyData.list [PyData.list args, PyData.dict kwd] ∧
        sendSafeItems args = true ∧ sendSafePairs kwd = true ∧
        ("options", PyData.dict []) ∈ kwd ∧
        (∀ e ∈ kwd, e.1 = "options" → e = ("options", PyData.dict []))) →
      p.foldl (cleanSendItem cfg raw strip []) (enc, rk) = (enc, rk ++ p)
  | [], rk => by
      intro _ _ _
      simp
  | kv :: rest, rk => by
      intro hnd hdisj hcanon
      rcases hcanon kv (List.mem_cons_self kv rest) with
        ⟨args, kwd, hshape, hargs, hkwd, hmem, huniq⟩
      rw [List.foldl_cons]
      rw [cleanSendItem_canonical cfg raw strip enc rk hk hi kv args kwd
        hshape hargs hkwd hmem huniq]
      have hanyrk : rk.any (fun e => e.1 == kv.1) = false := by
        apply List.any_eq_false.mpr
        intro e he hbeq
        exact hdisj kv (List.mem_cons_self kv rest) e he (by simpa using hbeq)
      rw [dictSet_append hanyrk]
      rw [cleanFold_id cfg raw strip enc hk hi rest (rk ++ [(kv.1, kv.2)])
        (List.nodup_cons.mp hnd).2 ?hdisj
        (fun kv2 h2 => hcanon kv2 (List.mem_cons_of_mem _ h2))]
      · simp
      case hdisj =>
        intro kv2 h2 e he
        rcases List.mem_append.mp he with he1 | he1
        · exact hdisj kv2 (List.mem_cons_of_mem _ h2) e he1
        · have he2 : e = (kv.1, kv.2) := List.mem_singleton.mp he1
          rw [he2]
          intro heq
          exact (List.nodup_cons.mp hnd).1 (List.mem_map.mpr ⟨kv2, h2, heq.symm⟩)

/-- C8 counterexample: `exCleanPayload` is a payload in canonical cleaned
form — it is the exact output of `clean_senddata` on `text=1` with options
`raw: True` — yet cleaning it again does not return an equivalent
structure: the second pass pops a (now absent) top-level options entry and
overwrites the inner options dict with the resulting empty dict, erasing
the raw flag. -/
theorem claim_C8_counterexample :
    clean_senddata exCleanCfg "utf-8" [("text", PyData.num 1),
        ("options", PyData.dict [("raw", PyData.bool true)])] =
      Except.ok ("utf-8", exCleanPayload) ∧
    clean_senddata exCleanCfg "utf-8" exCleanPayload =
      Except.ok ("utf-8", exCleanPayloadWiped) ∧
    firstOptionsEmpty exCleanPayload = false ∧
    firstOptionsEmpty exCleanPayloadWiped = true ∧
    clean_senddata exCleanCfg "utf-8" exCleanPayload ≠
      Except.ok ("utf-8", exCleanPayload) := by
  refine ⟨rfl, rfl, rfl, rfl, ?_⟩
  intro h
  have hpr := congrArg
    (fun r => match r with
      | Except.ok q => firstOptionsEmpty q.2
      | Except.error _ => false) h
  have hb : (true : Bool) = false := hpr
  exact Bool.noConfusion hb

/-- C8 (amended): `clean_senddata` is stable on a payload in canonical
cleaned form provided the string pipeline is inert (the session encoding is
known and inline-function parsing does not rewrite the text) and every
instruction's inner options dict is the *empty* dict: such a payload is
returned unchanged.  (When an inner options dict is nonempty — as happens
whenever the first cleaning was called with nonempty options — re-cleaning
is *not* the identity: the inner options are overwritten with the freshly
popped, now empty, top-level options, as the counterexample shows.) -/
theorem claim_C8_idempotent (cfg : CleanCfg) (enc : String)
    (p : List (String × PyData))
    (hk : cfg.knownEncoding enc = true)
    (hi : ∀ b s, cfg.parseInline b s = s)
    (hkeys : (p.map Prod.fst).Nodup)
    (hnopt : ∀ kv ∈ p, kv.1 ≠ "options")
    (hcanon : ∀ kv ∈ p, ∃ args kwd,
      kv.2 = PyData.list [PyData.list args, PyData.dict kwd] ∧
      sendSafeItems args = true ∧ sendSafePairs kwd = true ∧
      ("options", PyData.dict []) ∈ kwd ∧
      (∀ e ∈ kwd, e.1 = "options" → e = ("options", PyData.dict []))) :
    clean_senddata cfg enc p = Except.ok (enc, p) := by
  have hget : dictGet p "options" = Option.none := by
    unfold dictGet
    rw [List.find?_eq_none.mpr ?hne]
    · rfl
    case hne =>
      intro kv hkv
      simp [hnopt kv hkv]
  have hrest : p.filter (fun kv => kv.1 != "options") = p := by
    apply List.filter_eq_self.mpr
    intro kv hkv
    simp [bne, hnopt kv hkv]
  unfold clean_senddata
  rw [hget, hrest]
  show Except.ok (p.foldl (cleanSendItem cfg _ _ []) (enc, [])) = Except.ok (enc, p)
  rw [cleanFold_id cfg _ _ enc hk hi p [] hkeys
    (by intro kv _ e he; exact absurd he (List.not_mem_nil e)) hcanon]
  rw [List.nil_append]

/-- C8 witness: `claim_C8_idempotent` applied to a concrete canonical
payload with an empty inner options dict: re-cleaning returns it
unchanged. -/
theorem claim_C8_witness :
    clean_senddata exCleanCfg "utf-8" exCleanStable =
      Except.ok ("utf-8", exCleanStable) := by
  apply claim_C8_idempotent exCleanCfg "utf-8" exCleanStable rfl
    (fun _ _ => rfl) (by decide) (by decide)
  intro kv hkv
  have hkv2 : kv = ("text", PyData.list [PyData.list [PyData.str "hi"],
      PyData.dict [("options", PyData.dict [])]]) := by
    simpa [exCleanStable] using hkv
  subst hkv2
  refine ⟨[PyData.str "hi"], [("options", PyData.dict [])], rfl, rfl, rfl, ?_, ?_⟩
  · exact List.mem_singleton.mpr rfl
  · intro e he _
    exact List.mem_singleton.mp he
